import Mathlib

/-!
Verification of the lightweight UDP DNS spoofing responder
(`tools/spoof_mx.py`): a shallow embedding of its query decoder
(`DNSQuery.__init__`), its response encoder (`build_dns_response`) and the
serving loop (`run_dns_spoofer`), together with theorems settling the
specified properties.

Byte buffers are modelled as `List Nat` (one entry per byte, values below
256 on real network data); strings are modelled as lists of character code
points.  Fallible Python operations (an index error while parsing, a
struct packing error while encoding) are modelled with `Option`/`Except`.
-/

namespace SpoofMx

/-- Python slice `data[a:b]` on a byte list (truncating, never failing). -/
def pySlice (data : List Nat) (a b : Nat) : List Nat :=
  (data.take b).drop a

/-- Python `bytes.find` helper: the absolute index of the first zero byte in
the list, where `i` is the absolute index of the head. -/
def findZeroAux : List Nat → Nat → Option Nat
  | [], _ => none
  | b :: rest, i => if b = 0 then some i else findZeroAux rest (i + 1)

/-- Python `data.find(b'\x00', start)`: first index of a zero byte at or
after `start`, `none` when there is none (Python returns -1). -/
def pyFind0 (data : List Nat) (start : Nat) : Option Nat :=
  findZeroAux (data.drop start) start

/-- Python `str.split('.')` on a code-point list: split on every dot, never
returning an empty list (the empty string splits to one empty part). -/
def splitDot : List Nat → List (List Nat)
  | [] => [[]]
  | c :: rest =>
    if c = 46 then [] :: splitDot rest
    else
      match splitDot rest with
      | [] => [[c]]
      | p :: ps => (c :: p) :: ps

/-- Python `str.lower` on one code point: ASCII uppercase maps to lowercase
(the domains this tool compares are ASCII). -/
def pyLowerChar (c : Nat) : Nat :=
  if 65 ≤ c ∧ c ≤ 90 then c + 32 else c

/-- Python `str.lower` on a code-point list. -/
def pyLower (s : List Nat) : List Nat :=
  s.map pyLowerChar

/-- Whether a byte is a UTF-8 continuation byte (0x80-0xBF). -/
def isCont (b : Nat) : Bool :=
  128 ≤ b && b ≤ 191

/-- Python `bytes.decode('utf-8', errors='ignore')`: UTF-8 decoding where
every maximal invalid subpart is skipped.  Produces the list of decoded
code points; ASCII bytes decode to themselves.  The explicit fuel only
bounds the recursion (each step consumes at least one byte);
`utf8DecodeIgnore` supplies more fuel than any input can consume. -/
def utf8DecodeIgnoreF : Nat → List Nat → List Nat
  | 0, _ => []
  | _, [] => []
  | fuel + 1, b :: rest =>
    if b < 128 then b :: utf8DecodeIgnoreF fuel rest
    else if 194 ≤ b ∧ b ≤ 223 then
      match rest with
      | [] => []
      | c :: rest2 =>
        if isCont c then ((b - 192) * 64 + (c - 128)) :: utf8DecodeIgnoreF fuel rest2
        else utf8DecodeIgnoreF fuel rest
    else if 224 ≤ b ∧ b ≤ 239 then
      match rest with
      | [] => []
      | c :: rest2 =>
        if (b = 224 ∧ (160 ≤ c ∧ c ≤ 191)) ∨ (b = 237 ∧ (128 ≤ c ∧ c ≤ 159)) ∨
            (b ≠ 224 ∧ b ≠ 237 ∧ isCont c = true) then
          match rest2 with
          | [] => []
          | d :: rest3 =>
            if isCont d then
              ((b - 224) * 4096 + (c - 128) * 64 + (d - 128)) :: utf8DecodeIgnoreF fuel rest3
            else utf8DecodeIgnoreF fuel rest2
        else utf8DecodeIgnoreF fuel rest
    else if 240 ≤ b ∧ b ≤ 244 then
      match rest with
      | [] => []
      | c :: rest2 =>
        if (b = 240 ∧ (144 ≤ c ∧ c ≤ 191)) ∨ (b = 244 ∧ (128 ≤ c ∧ c ≤ 143)) ∨
            (b ≠ 240 ∧ b ≠ 244 ∧ isCont c = true) then
          match rest2 with
          | [] => []
          | d :: rest3 =>
            if isCont d then
              match rest3 with
              | [] => []
              | e :: rest4 =>
                if isCont e then
                  ((b - 240) * 262144 + (c - 128) * 4096 + (d - 128) * 64 + (e - 128)) ::
                    utf8DecodeIgnoreF fuel rest4
                else utf8DecodeIgnoreF fuel rest3
            else utf8DecodeIgnoreF fuel rest2
        else utf8DecodeIgnoreF fuel rest
    else utf8DecodeIgnoreF fuel rest

/-- Python `bytes.decode('utf-8', errors='ignore')` on a byte list. -/
def utf8DecodeIgnore (s : List Nat) : List Nat :=
  utf8DecodeIgnoreF (s.length + 1) s

/-- One step per label of the name walk of `DNSQuery.__init__` (lines
26-38): read the length byte at `pos`; a zero byte ends the walk at that
position; otherwise collect the label bytes `data[pos+1 : pos+1+length]`
(a truncating Python slice) and continue behind them.  Reading an index
outside the buffer is a Python `IndexError`, modelled as `none`.  The
explicit fuel only bounds the recursion; `parseLabels` supplies more fuel
than any walk can consume. -/
def parseLabelsF : Nat → List Nat → Nat → Option (List (List Nat) × Nat)
  | 0, _, _ => none
  | fuel + 1, data, pos =>
    match data[pos]? with
    | none => none
    | some length =>
      if length = 0 then some ([], pos)
      else
        match parseLabelsF fuel data (pos + 1 + length) with
        | none => none
        | some (parts, t) => some (pySlice data (pos + 1) (pos + 1 + length) :: parts, t)

/-- The label walk of `DNSQuery.__init__` starting at `pos`, returning the
collected label byte lists and the index of the zero terminator. -/
def parseLabels (data : List Nat) (pos : Nat) : Option (List (List Nat) × Nat) :=
  parseLabelsF (data.length + 1) data pos

/-- Errors of the responder: `malformedQuery` models the Python
`IndexError` escaping `DNSQuery.__init__` on a malformed buffer;
`packError` models a `struct.error`/`ValueError` while packing a response
from an invalid configured address or hostname. -/
inductive SpoofError where
  | malformedQuery
  | packError
deriving DecidableEq

/-- Decoded query (class `DNSQuery`): the dot-joined domain string as a
code-point list, the query type and the query class. -/
structure DNSQuery where
  domain : List Nat
  qtype : Nat
  qclass : Nat
deriving DecidableEq

/-- Big-endian 16-bit read `struct.unpack('>H', data[pos:pos+2])[0]`
(only used at positions where both bytes exist). -/
def be16 (data : List Nat) (pos : Nat) : Nat :=
  data.getD pos 0 * 256 + data.getD (pos + 1) 0

/-- The decoder `DNSQuery.__init__` (lines 22-47): walk the labels from
offset 12, join the per-label `utf-8`-with-ignore decodings with dots,
then read qtype and qclass when at least four bytes follow the
terminator, else leave both zero.  A buffer on which the walk runs out of
bounds raises in Python; here it yields `malformedQuery`. -/
def DNSQuery.decode (data : List Nat) : Except SpoofError DNSQuery :=
  match parseLabels data 12 with
  | none => .error .malformedQuery
  | some (parts, t) =>
    let domain := List.intercalate [46] (parts.map utf8DecodeIgnore)
    let pos := t + 1
    if pos + 4 ≤ data.length then
      .ok ⟨domain, be16 data pos, be16 data (pos + 2)⟩
    else
      .ok ⟨domain, 0, 0⟩

/-- Python `struct.pack('>H', n)` for the in-range values used here. -/
def pack16 (n : Nat) : List Nat :=
  [n / 256 % 256, n % 256]

/-- Python `struct.pack('>I', n)` for the in-range values used here. -/
def pack32 (n : Nat) : List Nat :=
  [n / 16777216 % 256, n / 65536 % 256, n / 256 % 256, n % 256]

/-- End of the echoed question slice (line 77):
`query_data.find(b'\x00', 12) + 5`; Python yields -1 + 5 = 4 when no zero
byte exists, making the slice `data[12:4]` empty. -/
def questionEnd (data : List Nat) : Nat :=
  match pyFind0 data 12 with
  | some i => i + 5
  | none => 4

/-- Wire encoding of a hostname (lines 99-102): every dot-separated part
prefixed by its length byte, closed by a zero byte.  Part characters are
ASCII in this tool, so `str.encode('utf-8')` is the identity on them. -/
def encodeDomainName (s : List Nat) : List Nat :=
  List.flatten ((splitDot s).map (fun part => part.length :: part)) ++ [0]

/-- Whether a code point is an ASCII decimal digit. -/
def isDigit (c : Nat) : Bool :=
  48 ≤ c && c ≤ 57

/-- Python `int` on a string of decimal digits. -/
def parseDecimal (s : List Nat) : Nat :=
  s.foldl (fun acc c => acc * 10 + (c - 48)) 0

/-- Whether `attacker_ip` survives line 120-121: `int` succeeds on each of
exactly four dot-separated digit parts and `struct.pack('B', ...)` accepts
each value (below 256). -/
def validIpString (ip : List Nat) : Bool :=
  let parts := splitDot ip
  parts.length = 4 && parts.all (fun p => !p.isEmpty && p.all isDigit && parseDecimal p < 256)

/-- Whether `attacker_mx` survives line 100-101: `struct.pack('B', len(part))`
accepts every part length (below 256). -/
def validMxString (mx : List Nat) : Bool :=
  (splitDot mx).all (fun p => p.length < 256)

/-- The encoder `build_dns_response` (lines 50-127), faithful to the
source: decode the query (propagating its failure), emit the header with
answer and additional counts of one exactly when `qtype == 15`, echo
`data[12 : find0+5]` as the question, and append the forged MX answer and
glue A record exactly when `qtype == 15` and the lowered domain equals the
lowered forged domain.  An invalid configured address or hostname makes
the packing in the forged branch raise in Python; here `packError`. -/
def build_dns_response (queryData forgedDomain attackerIp attackerMx : List Nat) :
    Except SpoofError (List Nat) :=
  match DNSQuery.decode queryData with
  | .error e => .error e
  | .ok query =>
    let transactionId := pySlice queryData 0 2
    let flags := pack16 0x8180
    let questions := pack16 1
    let answerRrs := if query.qtype = 15 then pack16 1 else pack16 0
    let authorityRrs := pack16 0
    let additionalRrs := if query.qtype = 15 then pack16 1 else pack16 0
    let header := transactionId ++ flags ++ questions ++ answerRrs ++ authorityRrs ++ additionalRrs
    let question := pySlice queryData 12 (questionEnd queryData)
    let response := header ++ question
    if query.qtype = 15 ∧ pyLower query.domain = pyLower forgedDomain then
      if validMxString attackerMx && validIpString attackerIp then
        let mxNameEncoded := encodeDomainName attackerMx
        let rdataLength := pack16 (2 + mxNameEncoded.length)
        let mxAnswer :=
          pack16 0xc00c ++ pack16 15 ++ pack16 1 ++ pack32 300 ++
            rdataLength ++ pack16 10 ++ mxNameEncoded
        let additionalName := mxNameEncoded.dropLast ++ [0]
        let ipBytes := (splitDot attackerIp).map parseDecimal
        let aRecord :=
          additionalName ++ pack16 1 ++ pack16 1 ++ pack32 300 ++ pack16 4 ++ ipBytes
        .ok (response ++ mxAnswer ++ aRecord)
      else
        .error .packError
    else
      .ok response

/-- Outcome of one iteration of the serving loop for one datagram: either
a response was sent back, or the datagram was dropped (decode, encode or
send failed; the exception is caught at lines 169-172). -/
inductive IterResult where
  | sent (r : List Nat)
  | dropped
deriving DecidableEq

/-- One iteration of the serving loop (lines 153-172): build the response
for the datagram and send it; any failure while decoding, encoding or
sending is caught by the per-iteration handler and the datagram is
dropped. -/
def serveIteration (forged ip mx : List Nat) (data : List Nat) (sendOk : Bool) : IterResult :=
  match build_dns_response data forged ip mx with
  | .error _ => .dropped
  | .ok r => if sendOk then .sent r else .dropped

/-- External events driving the serving loop: an arriving datagram (with
whether its reply send succeeds) or an operator interrupt. -/
inductive LoopEvent where
  | recv (data : List Nat) (sendOk : Bool)
  | interrupt

/-- The serving loop (lines 153-176) over a finite event trace: every
datagram is handled by one isolated iteration; the loop leaves the
serving state only on an interrupt, which yields exit code 0.  Returns
the responses sent and `some code` when the loop exited, `none` while
still serving. -/
def serveEvents (forged ip mx : List Nat) : List LoopEvent → List (List Nat) × Option Nat
  | [] => ([], none)
  | .interrupt :: _ => ([], some 0)
  | .recv d sendOk :: rest =>
    let (sentLater, code) := serveEvents forged ip mx rest
    match serveIteration forged ip mx d sendOk with
    | .sent r => (r :: sentLater, code)
    | .dropped => (sentLater, code)

/-- The responder `run_dns_spoofer` (lines 143-183): a failed socket bind
raises, is reported and returns exit code 1 without any retry; a
successful bind enters the serving loop, which an interrupt ends with
exit code 0. -/
def run_dns_spoofer (bindOk : Bool) (forged ip mx : List Nat)
    (events : List LoopEvent) : Option Nat :=
  if bindOk then (serveEvents forged ip mx events).2 else some 1

/-- Spec predicate, following the malformed-input policy words of section
4.1: walking the length-prefixed labels from `pos`, either a label length
byte would read past the end of the buffer or no zero terminator is found
before the buffer ends.  Fuel as in `parseLabelsF`. -/
def walkMalformedF : Nat → List Nat → Nat → Bool
  | 0, _, _ => true
  | fuel + 1, data, pos =>
    match data[pos]? with
    | none => true
    | some length =>
      if length = 0 then false else walkMalformedF fuel data (pos + 1 + length)

/-- Spec predicate: the domain-name walk from offset 12 falls off the end
of the buffer instead of reaching a zero terminator. -/
def malformedName (data : List Nat) : Bool :=
  walkMalformedF (data.length + 1) data 12

/-- Wire format of a domain name per the data model of section 3: each
label as one length byte followed by the label bytes, closed by a
zero-length byte.  Used to describe well-formed query buffers. -/
def wireName (labels : List (List Nat)) : List Nat :=
  List.flatten (labels.map fun p => p.length :: p) ++ [0]

/-- Code points of the configured forged domain `example.com`. -/
def strExampleCom : List Nat := [101, 120, 97, 109, 112, 108, 101, 46, 99, 111, 109]

/-- Code points of the configured attacker address `10.0.0.66`. -/
def strAttackerIp : List Nat := [49, 48, 46, 48, 46, 48, 46, 54, 54]

/-- Code points of the configured attacker MX host `att.example.com`. -/
def strAttackerMx : List Nat :=
  [97, 116, 116, 46, 101, 120, 97, 109, 112, 108, 101, 46, 99, 111, 109]

/-- A 12-byte query header: transaction id 0x0102, flags 0x0100, one
question, no other records. -/
def hdrStd : List Nat := [1, 2, 1, 0, 0, 1, 0, 0, 0, 0, 0, 0]

/-- An MX (type 15, class 1) query for `example.com`. -/
def dataMxExample : List Nat :=
  hdrStd ++ [7, 101, 120, 97, 109, 112, 108, 101, 3, 99, 111, 109, 0, 0, 15, 0, 1]

/-- An MX (type 15, class 1) query for `other.com`, a domain different
from the configured forged domain. -/
def dataMxOther : List Nat :=
  hdrStd ++ [5, 111, 116, 104, 101, 114, 3, 99, 111, 109, 0, 0, 15, 0, 1]

/-- An MX (type 15, class 1) query for `x.com`, a domain different from
the configured forged domain. -/
def dataMxXcom : List Nat :=
  hdrStd ++ [1, 120, 3, 99, 111, 109, 0, 0, 15, 0, 1]

/-- A query whose single name label consists of one zero byte, followed
by the name terminator and qtype 15, qclass 1: the first zero byte of the
buffer at or after offset 12 sits inside the label, before the
terminator. -/
def dataZeroLabel : List Nat := hdrStd ++ [1, 0, 0, 0, 15, 0, 1]

/-- A malformed buffer: the label length byte 5 at offset 12 would read
past the end of the buffer. -/
def dataOverrun : List Nat := hdrStd ++ [5, 97]

/-- A buffer whose name terminates in bounds but with only two bytes
after the terminator, fewer than the four needed for qtype and qclass. -/
def dataTruncated : List Nat := hdrStd ++ [3, 102, 111, 111, 0, 0, 15]

/-- The decoded query of `dataMxExample`. -/
def queryMxExample : DNSQuery :=
  (DNSQuery.decode dataMxExample).toOption.getD ⟨[], 0, 0⟩

/-- The response the encoder produces for `dataMxExample` under the
default configuration. -/
def respMxExample : List Nat :=
  (build_dns_response dataMxExample strExampleCom strAttackerIp strAttackerMx).toOption.getD []

/-- The response the encoder produces for `dataZeroLabel` under the
default configuration. -/
def respZeroLabel : List Nat :=
  (build_dns_response dataZeroLabel strExampleCom strAttackerIp strAttackerMx).toOption.getD []

/-! ## Helper lemmas -/

theorem parseLabelsF_terminator {data : List Nat} :
    ∀ {fuel pos : Nat} {parts : List (List Nat)} {t : Nat},
      parseLabelsF fuel data pos = some (parts, t) → pos ≤ t ∧ data[t]? = some 0 := by
  intro fuel
  induction fuel with
  | zero => intro pos parts t h; simp [parseLabelsF] at h
  | succ fuel ih =>
    intro pos parts t h
    rw [parseLabelsF] at h
    cases hq : data[pos]? with
    | none => rw [hq] at h; simp at h
    | some length =>
      rw [hq] at h
      dsimp only at h
      by_cases hlen : length = 0
      · rw [if_pos hlen] at h
        simp only [Option.some.injEq, Prod.mk.injEq] at h
        obtain ⟨-, ht⟩ := h
        subst ht
        exact ⟨le_refl _, by rw [hq, hlen]⟩
      · rw [if_neg hlen] at h
        cases hrec : parseLabelsF fuel data (pos + 1 + length) with
        | none => rw [hrec] at h; simp at h
        | some pr =>
          obtain ⟨parts', t'⟩ := pr
          rw [hrec] at h
          simp only [Option.some.injEq, Prod.mk.injEq] at h
          obtain ⟨-, ht⟩ := h
          subst ht
          obtain ⟨hle, hz⟩ := ih hrec
          exact ⟨by omega, hz⟩

theorem walkMalformedF_parseLabelsF {data : List Nat} :
    ∀ {fuel pos : Nat}, walkMalformedF fuel data pos = true →
      parseLabelsF fuel data pos = none := by
  intro fuel
  induction fuel with
  | zero => intro pos _; rfl
  | succ fuel ih =>
    intro pos h
    rw [walkMalformedF] at h
    rw [parseLabelsF]
    cases hq : data[pos]? with
    | none => rfl
    | some length =>
      rw [hq] at h
      dsimp only at h
      dsimp only
      by_cases hlen : length = 0
      · rw [if_pos hlen] at h; exact absurd h (by simp)
      · rw [if_neg hlen] at h
        rw [if_neg hlen, ih h]

theorem findZeroAux_eq :
    ∀ (l : List Nat) (i0 k : Nat), l[k]? = some 0 →
      (∀ j, j < k → l[j]? ≠ some 0) → findZeroAux l i0 = some (i0 + k) := by
  intro l
  induction l with
  | nil => intro i0 k hk _; simp at hk
  | cons b rest ih =>
    intro i0 k hk hno
    cases k with
    | zero =>
      simp at hk
      simp [findZeroAux, hk]
    | succ k =>
      have hb : b ≠ 0 := by
        intro hb0
        exact hno 0 (Nat.succ_pos _) (by simp [hb0])
      rw [findZeroAux, if_neg hb]
      have := ih (i0 + 1) k (by simpa using hk)
        (fun j hj => by simpa using hno (j + 1) (by omega))
      rw [this]
      congr 1
      omega

theorem pyFind0_eq_of {data : List Nat} {t : Nat} (h12 : 12 ≤ t)
    (ht : data[t]? = some 0)
    (hno : ∀ i, i < t → 12 ≤ i → data[i]? ≠ some 0) :
    pyFind0 data 12 = some t := by
  unfold pyFind0
  have hk : (data.drop 12)[t - 12]? = some 0 := by
    rw [List.getElem?_drop]
    rwa [show 12 + (t - 12) = t by omega]
  have hno' : ∀ j, j < t - 12 → (data.drop 12)[j]? ≠ some 0 := by
    intro j hj
    rw [List.getElem?_drop]
    exact hno (12 + j) (by omega) (by omega)
  rw [findZeroAux_eq _ 12 (t - 12) hk hno']
  congr 1
  omega

theorem parseLabels_lower_bound {data : List Nat} {parts : List (List Nat)} {t : Nat}
    (h : parseLabels data 12 = some (parts, t)) :
    12 ≤ t ∧ t < data.length ∧ data[t]? = some 0 := by
  obtain ⟨h12, hz⟩ := parseLabelsF_terminator h
  have : t < data.length := (List.getElem?_eq_some_iff.mp hz).1
  exact ⟨h12, this, hz⟩

theorem pySlice_txid_length {data : List Nat} (h : 2 ≤ data.length) :
    (pySlice data 0 2).length = 2 := by
  simp [pySlice]
  omega

/-- The shape of every encoder output, as a function of the decoded
query: header (echoed transaction id, flags 0x8180, question count 1,
answer and additional counts 1 exactly when qtype is 15), echoed question
slice, and the forged MX answer plus glue A record exactly when qtype is
15 and the lowered domain equals the lowered forged domain. -/
theorem build_shape {data forged ip mx : List Nat} {q : DNSQuery}
    (hdec : DNSQuery.decode data = .ok q) :
    build_dns_response data forged ip mx =
      if q.qtype = 15 ∧ pyLower q.domain = pyLower forged then
        if validMxString mx && validIpString ip then
          .ok ((pySlice data 0 2 ++ [129, 128, 0, 1, 0, 1, 0, 0, 0, 1] ++
              pySlice data 12 (questionEnd data))
            ++ ([192, 12, 0, 15, 0, 1, 0, 0, 1, 44] ++
              pack16 (2 + (encodeDomainName mx).length) ++ [0, 10] ++ encodeDomainName mx)
            ++ (((encodeDomainName mx).dropLast ++ [0]) ++
              [0, 1, 0, 1, 0, 0, 1, 44, 0, 4] ++ (splitDot ip).map parseDecimal))
        else .error .packError
      else
        .ok (pySlice data 0 2 ++
          (if q.qtype = 15 then ([129, 128, 0, 1, 0, 1, 0, 0, 0, 1] : List Nat)
            else [129, 128, 0, 1, 0, 0, 0, 0, 0, 0]) ++
          pySlice data 12 (questionEnd data)) := by
  unfold build_dns_response
  rw [hdec]
  dsimp only
  by_cases h1 : q.qtype = 15 ∧ pyLower q.domain = pyLower forged
  · rw [if_pos h1, if_pos h1]
    by_cases h2 : (validMxString mx && validIpString ip) = true
    · rw [if_pos h2, if_pos h2]
      simp [pack16, pack32, h1.1]
    · rw [if_neg h2, if_neg h2]
  · rw [if_neg h1, if_neg h1]
    by_cases hq15 : q.qtype = 15
    · rw [if_pos hq15, if_pos hq15]
      simp [pack16, pack32]
    · rw [if_neg hq15, if_neg hq15]
      simp [pack16, pack32]

theorem decode_ok_parse {data : List Nat} {q : DNSQuery}
    (h : DNSQuery.decode data = .ok q) :
    ∃ parts t, parseLabels data 12 = some (parts, t) := by
  unfold DNSQuery.decode at h
  cases hp : parseLabels data 12 with
  | none => rw [hp] at h; exact absurd h (by simp)
  | some pr =>
    obtain ⟨a, b⟩ := pr
    exact ⟨a, b, rfl⟩

theorem decode_ok_length {data : List Nat} {q : DNSQuery}
    (h : DNSQuery.decode data = .ok q) : 12 < data.length := by
  obtain ⟨parts, t, hp⟩ := decode_ok_parse h
  obtain ⟨h1, h2, -⟩ := parseLabels_lower_bound hp
  omega

theorem build_ok_decode {data f i m r : List Nat}
    (h : build_dns_response data f i m = .ok r) :
    ∃ q, DNSQuery.decode data = .ok q := by
  unfold build_dns_response at h
  cases hd : DNSQuery.decode data with
  | error e => rw [hd] at h; exact absurd h (by simp)
  | ok q => exact ⟨q, rfl⟩

theorem drop_length_sub {l₁ l₂ : List Nat} {n : Nat} (h : l₂.length = n) :
    (l₁ ++ l₂).drop ((l₁ ++ l₂).length - n) = l₂ := by
  rw [List.length_append, h, show l₁.length + n - n = l₁.length by omega]
  exact List.drop_left _ _

theorem utf8DecodeIgnoreF_ascii :
    ∀ (fuel : Nat) (l : List Nat), l.length < fuel → (∀ b ∈ l, b < 128) →
      utf8DecodeIgnoreF fuel l = l := by
  intro fuel
  induction fuel with
  | zero => intro l h _; omega
  | succ fuel ih =>
    intro l hlen hb
    cases l with
    | nil => rfl
    | cons b rest =>
      have hb0 : b < 128 := hb b (List.mem_cons_self _ _)
      rw [utf8DecodeIgnoreF.eq_def]
      dsimp only
      rw [if_pos hb0,
        ih rest (by simp at hlen; omega) (fun x hx => hb x (List.mem_cons_of_mem _ hx))]

theorem utf8DecodeIgnore_ascii {l : List Nat} (hb : ∀ b ∈ l, b < 128) :
    utf8DecodeIgnore l = l :=
  utf8DecodeIgnoreF_ascii _ l (by omega) hb

theorem wireName_cons (p : List Nat) (rest : List (List Nat)) :
    wireName (p :: rest) = p.length :: (p ++ wireName rest) := by
  simp [wireName]

theorem wireName_nil : wireName [] = [0] := rfl

theorem parseLabelsF_wireName :
    ∀ (labels : List (List Nat)) (pref tail : List Nat) (fuel : Nat),
      (∀ p ∈ labels, p ≠ []) → labels.length < fuel →
      parseLabelsF fuel (pref ++ wireName labels ++ tail) pref.length =
        some (labels, pref.length + (labels.map fun p => p.length + 1).sum) := by
  intro labels
  induction labels with
  | nil =>
    intro pref tail fuel _ hfuel
    cases fuel with
    | zero => omega
    | succ fuel =>
      rw [parseLabelsF]
      have hidx : (pref ++ wireName [] ++ tail)[pref.length]? = some 0 := by
        rw [wireName_nil, List.append_assoc,
          List.getElem?_append_right (le_refl pref.length)]
        simp
      rw [hidx]
      simp
  | cons p rest ih =>
    intro pref tail fuel hne hfuel
    cases fuel with
    | zero => omega
    | succ fuel =>
      have hplen : p ≠ [] := hne p (List.mem_cons_self _ _)
      have hdata : pref ++ wireName (p :: rest) ++ tail =
          (pref ++ p.length :: p) ++ wireName rest ++ tail := by
        rw [wireName_cons]; simp
      rw [parseLabelsF]
      have hidx : (pref ++ wireName (p :: rest) ++ tail)[pref.length]? = some p.length := by
        rw [wireName_cons, List.append_assoc,
          List.getElem?_append_right (le_refl pref.length)]
        simp
      rw [hidx]
      dsimp only
      rw [if_neg (by simpa using hplen)]
      have hpos : pref.length + 1 + p.length = (pref ++ p.length :: p).length := by
        simp; omega
      have hrec := ih (pref ++ p.length :: p) tail fuel
        (fun x hx => hne x (List.mem_cons_of_mem _ hx)) (by simp at hfuel ⊢; omega)
      rw [← hpos] at hrec
      rw [hdata, hrec]
      dsimp only
      have hslice : pySlice ((pref ++ p.length :: p) ++ wireName rest ++ tail)
          (pref.length + 1) (pref.length + 1 + p.length) = p := by
        unfold pySlice
        have htake : ((pref ++ p.length :: p) ++ wireName rest ++ tail).take
            (pref.length + 1 + p.length) = (pref ++ [p.length]) ++ p := by
          rw [List.append_assoc]
          have h1 : pref ++ p.length :: p = (pref ++ [p.length]) ++ p := by simp
          rw [h1, List.append_assoc]
          rw [show pref.length + 1 + p.length = (pref ++ [p.length]).length + p.length
            from by simp]
          rw [List.take_append]
          rw [List.take_left' rfl]
        rw [htake]
        exact List.drop_left' (by simp)
      rw [hslice]
      congr 2
      simp
      omega

/-! ## Claim theorems -/

/-- C3: for every input buffer shorter than 12 bytes, and for every buffer
in which a label length byte would read past the end of the buffer or no
zero terminator is found before the buffer ends, decoding yields the
malformed-query result, and the serving iteration sends no response for
that datagram. -/
theorem decode_rejects_malformed (data forged ip mx : List Nat) (sendOk : Bool)
    (h : data.length < 12 ∨ malformedName data = true) :
    DNSQuery.decode data = .error .malformedQuery ∧
      serveIteration forged ip mx data sendOk = .dropped := by
  have hparse : parseLabels data 12 = none := by
    cases h with
    | inl hlt =>
      unfold parseLabels
      rw [parseLabelsF]
      rw [List.getElem?_eq_none (by omega)]
    | inr hmal => exact walkMalformedF_parseLabelsF hmal
  have hdec : DNSQuery.decode data = .error .malformedQuery := by
    unfold DNSQuery.decode
    rw [hparse]
  refine ⟨hdec, ?_⟩
  unfold serveIteration build_dns_response
  rw [hdec]

theorem decode_rejects_malformed_witness :
    (dataOverrun.length < 12 ∨ malformedName dataOverrun = true) ∧
      (DNSQuery.decode dataOverrun = .error .malformedQuery ∧
        serveIteration strExampleCom strAttackerIp strAttackerMx dataOverrun true = .dropped) :=
  ⟨by decide,
    decode_rejects_malformed dataOverrun strExampleCom strAttackerIp strAttackerMx true
      (by decide)⟩

/-- C10: for every input buffer whose domain name terminates (zero byte
found) within the buffer but with fewer than 4 bytes remaining after the
terminator, decoding succeeds with qtype = 0 and qclass = 0, and the
truncated datagram is answered with a response whose answer, authority
and additional counts are all zero rather than being dropped as
malformed. -/
theorem decode_truncated_tail (data forged ip mx : List Nat)
    (parts : List (List Nat)) (t : Nat)
    (hp : parseLabels data 12 = some (parts, t))
    (hshort : data.length < t + 5) :
    DNSQuery.decode data =
      .ok ⟨List.intercalate [46] (parts.map utf8DecodeIgnore), 0, 0⟩ ∧
    build_dns_response data forged ip mx =
      .ok (pySlice data 0 2 ++ [129, 128, 0, 1, 0, 0, 0, 0, 0, 0] ++
        pySlice data 12 (questionEnd data)) := by
  have hdec : DNSQuery.decode data =
      .ok ⟨List.intercalate [46] (parts.map utf8DecodeIgnore), 0, 0⟩ := by
    unfold DNSQuery.decode
    rw [hp]
    dsimp only
    rw [if_neg (by omega)]
  refine ⟨hdec, ?_⟩
  rw [build_shape hdec]
  rw [if_neg (by simp)]
  rw [if_neg (by simp)]

theorem decode_truncated_tail_witness :
    (parseLabels dataTruncated 12 = some ([[102, 111, 111]], 16) ∧
      dataTruncated.length < 16 + 5) ∧
    (DNSQuery.decode dataTruncated =
        .ok ⟨List.intercalate [46] ([[102, 111, 111]].map utf8DecodeIgnore), 0, 0⟩ ∧
      build_dns_response dataTruncated strExampleCom strAttackerIp strAttackerMx =
        .ok (pySlice dataTruncated 0 2 ++ [129, 128, 0, 1, 0, 0, 0, 0, 0, 0] ++
          pySlice dataTruncated 12 (questionEnd dataTruncated))) :=
  ⟨⟨by decide, by decide⟩,
    decode_truncated_tail dataTruncated strExampleCom strAttackerIp strAttackerMx
      [[102, 111, 111]] 16 (by decide) (by decide)⟩

theorem wireName_length :
    ∀ labels : List (List Nat),
      (wireName labels).length = (labels.map fun p => p.length + 1).sum + 1 := by
  intro labels
  induction labels with
  | nil => rfl
  | cons p rest ih =>
    rw [wireName_cons]
    simp only [List.length_cons, List.length_append, List.map_cons, List.sum_cons, ih]
    omega

theorem len_le_sumLen :
    ∀ labels : List (List Nat), labels.length ≤ (labels.map fun p => p.length + 1).sum := by
  intro labels
  induction labels with
  | nil => simp
  | cons p rest ih => simp [List.sum_cons]; omega

/-- C6: for every well-formed single-question query buffer (12-byte
header, labels of 1 to 63 ASCII bytes each closed by a zero byte, then 4
bytes of qtype and qclass), decoding yields the domain name as the exact
dot-joined sequence of the labels present in the input, preserving the
case of every label byte. -/
theorem decode_wellformed_domain (hdr tail : List Nat) (labels : List (List Nat))
    (hhdr : hdr.length = 12) (htail : tail.length = 4)
    (hlab : ∀ p ∈ labels, 1 ≤ p.length ∧ p.length ≤ 63 ∧ ∀ b ∈ p, b < 128) :
    (DNSQuery.decode (hdr ++ wireName labels ++ tail)).map DNSQuery.domain =
      Except.ok (List.intercalate [46] labels) := by
  have hne : ∀ p ∈ labels, p ≠ [] := by
    intro p hp h0
    have := (hlab p hp).1
    rw [h0] at this
    simp at this
  have hfuel : labels.length < (hdr ++ wireName labels ++ tail).length + 1 := by
    have h1 := len_le_sumLen labels
    have h2 := wireName_length labels
    simp only [List.length_append]
    omega
  have hp : parseLabels (hdr ++ wireName labels ++ tail) 12 =
      some (labels, 12 + (labels.map fun p => p.length + 1).sum) := by
    unfold parseLabels
    have h := parseLabelsF_wireName labels hdr tail
      ((hdr ++ wireName labels ++ tail).length + 1) hne hfuel
    rw [hhdr] at h
    exact h
  have hdom : List.map utf8DecodeIgnore labels = labels := by
    rw [List.map_congr_left (fun p hp => utf8DecodeIgnore_ascii (hlab p hp).2.2)]
    simp
  unfold DNSQuery.decode
  rw [hp]
  dsimp only
  rw [hdom]
  split <;> simp [Except.map]

theorem decode_wellformed_domain_witness :
    (hdrStd.length = 12 ∧ ([0, 15, 0, 1] : List Nat).length = 4 ∧
      (∀ p ∈ [[119, 87, 119], [65, 98]], 1 ≤ List.length p ∧ List.length p ≤ 63 ∧
        ∀ b ∈ p, b < 128)) ∧
    (DNSQuery.decode (hdrStd ++ wireName [[119, 87, 119], [65, 98]] ++ [0, 15, 0, 1])).map
        DNSQuery.domain =
      Except.ok (List.intercalate [46] [[119, 87, 119], [65, 98]]) :=
  ⟨⟨by decide, by decide, by decide⟩,
    decode_wellformed_domain hdrStd [0, 15, 0, 1] [[119, 87, 119], [65, 98]]
      (by decide) (by decide) (by decide)⟩

theorem drop_last4_triple (A B C I : List Nat) (h : I.length = 4) :
    (A ++ B ++ (C ++ I)).drop ((A ++ B ++ (C ++ I)).length - 4) = I := by
  have hre : A ++ B ++ (C ++ I) = (A ++ B ++ C) ++ I := by
    simp [List.append_assoc]
  rw [hre]
  exact drop_length_sub h

theorem drop_head_triple (A B C : List Nat) (n : Nat) (h : A.length = n) :
    (A ++ B ++ C).drop n = B ++ C := by
  rw [List.append_assoc]
  exact List.drop_left' h

theorem validIp_len4 {ip : List Nat} (hip : validIpString ip = true) :
    ((splitDot ip).map parseDecimal).length = 4 := by
  simp only [validIpString, Bool.and_eq_true, decide_eq_true_eq] at hip
  simp [hip.1]

/-- C4: for every decoded query with qtype 15 whose domain equals the
configured forged domain case-insensitively (and a packable configured
address and MX host), the encoded response has answer-count 1 and
additional-count 1 in its header, and the RDATA of the trailing
additional A record is exactly the four octets of the configured attacker
IPv4 address. -/
theorem forged_counts_and_glue (data forged ip mx : List Nat) (q : DNSQuery) (r : List Nat)
    (hdec : DNSQuery.decode data = .ok q)
    (hq15 : q.qtype = 15)
    (hdom : pyLower q.domain = pyLower forged)
    (hmx : validMxString mx = true)
    (hip : validIpString ip = true)
    (hr : build_dns_response data forged ip mx = .ok r) :
    be16 r 6 = 1 ∧ be16 r 10 = 1 ∧
      r.drop (r.length - 4) = (splitDot ip).map parseDecimal := by
  rw [build_shape hdec, if_pos ⟨hq15, hdom⟩, if_pos (by simp [hmx, hip])] at hr
  injection hr with hBIG
  have hlen2 : 2 ≤ data.length := by
    have := decode_ok_length hdec
    omega
  obtain ⟨t0, t1, htx⟩ := List.length_eq_two.mp (pySlice_txid_length hlen2)
  refine ⟨?_, ?_, ?_⟩
  · rw [← hBIG, htx]
    simp [be16, List.getD]
  · rw [← hBIG, htx]
    simp [be16, List.getD]
  · rw [← hBIG]
    exact drop_last4_triple _ _ _ _ (validIp_len4 hip)

theorem forged_counts_and_glue_witness :
    (DNSQuery.decode dataMxExample = .ok queryMxExample ∧
      queryMxExample.qtype = 15 ∧
      pyLower queryMxExample.domain = pyLower strExampleCom ∧
      validMxString strAttackerMx = true ∧ validIpString strAttackerIp = true ∧
      build_dns_response dataMxExample strExampleCom strAttackerIp strAttackerMx =
        .ok respMxExample) ∧
    (be16 respMxExample 6 = 1 ∧ be16 respMxExample 10 = 1 ∧
      respMxExample.drop (respMxExample.length - 4) =
        (splitDot strAttackerIp).map parseDecimal) :=
  ⟨⟨rfl, by decide, by decide, by decide, by decide, rfl⟩,
    forged_counts_and_glue dataMxExample strExampleCom strAttackerIp strAttackerMx
      queryMxExample respMxExample rfl (by decide) (by decide) (by decide)
      (by decide) rfl⟩

/-- C7: in every forged response, the MX answer record is appended first,
directly after the echoed question: its NAME is the compression pointer
0xC00C, type 15, class 1, TTL 300 seconds, RDATA the 16-bit preference 10
followed by the length-prefixed encoding of the configured attacker MX
hostname; the additional A record follows it, with the MX target name
freshly encoded (not compressed), type 1, class 1, TTL 300, RDATA length
4, and the four attacker address octets. -/
theorem forged_record_layout (data forged ip mx : List Nat) (q : DNSQuery) (r : List Nat)
    (hdec : DNSQuery.decode data = .ok q)
    (hq15 : q.qtype = 15)
    (hdom : pyLower q.domain = pyLower forged)
    (hmx : validMxString mx = true)
    (hip : validIpString ip = true)
    (hr : build_dns_response data forged ip mx = .ok r) :
    r.drop (12 + (pySlice data 12 (questionEnd data)).length) =
      [192, 12, 0, 15, 0, 1, 0, 0, 1, 44] ++
        pack16 (2 + (encodeDomainName mx).length) ++ [0, 10] ++ encodeDomainName mx ++
        (((encodeDomainName mx).dropLast ++ [0]) ++ [0, 1, 0, 1, 0, 0, 1, 44, 0, 4] ++
          (splitDot ip).map parseDecimal) := by
  rw [build_shape hdec, if_pos ⟨hq15, hdom⟩, if_pos (by simp [hmx, hip])] at hr
  injection hr with hBIG
  have hlen2 : 2 ≤ data.length := by
    have := decode_ok_length hdec
    omega
  have hHQlen : (pySlice data 0 2 ++ [129, 128, 0, 1, 0, 1, 0, 0, 0, 1] ++
      pySlice data 12 (questionEnd data)).length =
      12 + (pySlice data 12 (questionEnd data)).length := by
    simp [List.length_append, pySlice_txid_length hlen2]
    omega
  rw [← hBIG, drop_head_triple _ _ _ _ hHQlen]

theorem forged_record_layout_witness :
    (DNSQuery.decode dataMxExample = .ok queryMxExample ∧
      queryMxExample.qtype = 15 ∧
      pyLower queryMxExample.domain = pyLower strExampleCom ∧
      validMxString strAttackerMx = true ∧ validIpString strAttackerIp = true ∧
      build_dns_response dataMxExample strExampleCom strAttackerIp strAttackerMx =
        .ok respMxExample) ∧
    respMxExample.drop (12 + (pySlice dataMxExample 12 (questionEnd dataMxExample)).length) =
      [192, 12, 0, 15, 0, 1, 0, 0, 1, 44] ++
        pack16 (2 + (encodeDomainName strAttackerMx).length) ++ [0, 10] ++
        encodeDomainName strAttackerMx ++
        (((encodeDomainName strAttackerMx).dropLast ++ [0]) ++
          [0, 1, 0, 1, 0, 0, 1, 44, 0, 4] ++ (splitDot strAttackerIp).map parseDecimal) :=
  ⟨⟨rfl, by decide, by decide, by decide, by decide, rfl⟩,
    forged_record_layout dataMxExample strExampleCom strAttackerIp strAttackerMx
      queryMxExample respMxExample rfl (by decide) (by decide) (by decide)
      (by decide) rfl⟩

theorem drop12_Tlit (T L X : List Nat) (hT : T.length = 2) (hL : L.length = 10) :
    (T ++ (L ++ X)).drop 12 = X := by
  have hre : T ++ (L ++ X) = (T ++ L) ++ X := (List.append_assoc _ _ _).symm
  rw [hre]
  exact List.drop_left' (by rw [List.length_append, hT, hL])

/-- C5 counterexample: for the concrete query `dataZeroLabel`, whose
first zero byte at or after offset 12 lies inside a label (the name
terminator is at offset 14, so the question section is bytes 12 through
18 inclusive, `pySlice` bound 19), the encoder produces a response, yet
that response does not reproduce the question section byte-for-byte: the
echoed question is cut short at the zero label byte. -/
theorem response_echo_counterexample :
    build_dns_response dataZeroLabel strExampleCom strAttackerIp strAttackerMx =
      .ok respZeroLabel ∧
    parseLabels dataZeroLabel 12 = some ([[0]], 14) ∧
    respZeroLabel.drop 12 = [1, 0, 0, 0, 15, 0] ∧
    pySlice dataZeroLabel 12 19 = [1, 0, 0, 0, 15, 0, 1] ∧
    ¬ pySlice dataZeroLabel 12 19 <+: respZeroLabel.drop 12 :=
  ⟨rfl, by decide, by decide, by decide, by decide⟩

/-- C5 (amended): every response the encoder produces echoes the original
16-bit transaction id in bytes 0-1; and provided every byte of the name
region before the zero terminator is nonzero (so the first zero byte at
or after offset 12 is the name terminator), the response reproduces the
question section byte-for-byte from the original input buffer, offset 12
through the end of QTYPE and QCLASS, directly after its header. -/
theorem response_echoes_txid_question (data forged ip mx r : List Nat)
    (parts : List (List Nat)) (t : Nat)
    (hr : build_dns_response data forged ip mx = .ok r) :
    r.take 2 = pySlice data 0 2 ∧
      (parseLabels data 12 = some (parts, t) →
        (∀ i, i < t → 12 ≤ i → data.getD i 1 ≠ 0) →
        pySlice data 12 (t + 5) <+: r.drop 12) := by
  obtain ⟨q, hdec⟩ := build_ok_decode hr
  have hlen2 : 2 ≤ data.length := by
    have := decode_ok_length hdec
    omega
  have hQE : parseLabels data 12 = some (parts, t) →
      (∀ i, i < t → 12 ≤ i → data.getD i 1 ≠ 0) → questionEnd data = t + 5 := by
    intro hp hno
    obtain ⟨ht12, htlen, htz⟩ := parseLabels_lower_bound hp
    have hno' : ∀ i, i < t → 12 ≤ i → data[i]? ≠ some 0 := by
      intro i hi h12 hcontra
      refine hno i hi h12 ?_
      rw [List.getD_eq_getElem?_getD, hcontra]
      rfl
    unfold questionEnd
    rw [pyFind0_eq_of ht12 htz hno']
  rw [build_shape hdec] at hr
  by_cases hcond : q.qtype = 15 ∧ pyLower q.domain = pyLower forged
  · rw [if_pos hcond] at hr
    by_cases hv : (validMxString mx && validIpString ip) = true
    · rw [if_pos hv] at hr
      injection hr with hBIG
      constructor
      · rw [← hBIG]
        simp only [List.append_assoc]
        rw [List.take_left' (pySlice_txid_length hlen2)]
      · intro hp hno
        rw [← hBIG]
        simp only [List.append_assoc]
        rw [drop12_Tlit _ [129, 128, 0, 1, 0, 1, 0, 0, 0, 1] _
          (pySlice_txid_length hlen2) rfl]
        rw [hQE hp hno]
        exact List.prefix_append _ _
    · rw [if_neg hv] at hr
      exact absurd hr (by simp)
  · rw [if_neg hcond] at hr
    injection hr with hBIG
    constructor
    · rw [← hBIG]
      simp only [List.append_assoc]
      rw [List.take_left' (pySlice_txid_length hlen2)]
    · intro hp hno
      rw [← hBIG]
      simp only [List.append_assoc]
      rw [drop12_Tlit _ _ _ (pySlice_txid_length hlen2) (by split <;> rfl)]
      rw [hQE hp hno]

theorem response_echoes_txid_question_witness :
    (build_dns_response dataMxExample strExampleCom strAttackerIp strAttackerMx =
        .ok respMxExample ∧
      parseLabels dataMxExample 12 =
        some ([[101, 120, 97, 109, 112, 108, 101], [99, 111, 109]], 24) ∧
      (∀ i, i < 24 → 12 ≤ i → dataMxExample.getD i 1 ≠ 0)) ∧
    (respMxExample.take 2 = pySlice dataMxExample 0 2 ∧
      pySlice dataMxExample 12 (24 + 5) <+: respMxExample.drop 12) := by
  have h := response_echoes_txid_question dataMxExample strExampleCom strAttackerIp
    strAttackerMx respMxExample [[101, 120, 97, 109, 112, 108, 101], [99, 111, 109]] 24 rfl
  exact ⟨⟨rfl, by decide, by decide⟩, h.1, h.2 (by decide) (by decide)⟩

/-- C1: at the concrete MX query `dataMxOther` for `other.com`, decoded
with qtype 15 but a domain different from the forged `example.com`, the
encoder emits answer-count 1 and additional-count 1 in the header bytes
while appending no record at all: the whole response is the 12-byte
header plus the 15-byte echoed question.  The claimed answer-count 0 and
additional-count 0 for this case do not hold on the code. -/
theorem mx_mismatch_nonzero_counts :
    (build_dns_response dataMxOther strExampleCom strAttackerIp strAttackerMx).toOption.map
        (fun r => (pySlice r 6 8, pySlice r 10 12, r.drop 12, r.length)) =
      some ([0, 1], [0, 1], [5, 111, 116, 104, 101, 114, 3, 99, 111, 109, 0, 0, 15, 0, 1],
        27) := by
  decide

/-- C2: at the concrete MX query `dataMxXcom` for `x.com`, the header
count fields declare one answer record and one additional record, yet
the number of record bytes the encoder appends after the echoed question
is zero, so the counts do not equal the number of records actually
appended. -/
theorem counts_disagree_with_appended :
    (build_dns_response dataMxXcom strExampleCom strAttackerIp strAttackerMx).toOption.map
        (fun r => (be16 r 6, be16 r 10,
          r.length - (12 + (pySlice dataMxXcom 12 (questionEnd dataMxXcom)).length))) =
      some (1, 1, 0) := by
  decide

/-- C8: for every configuration and every finite sequence of received
datagrams (each with an arbitrary send outcome), the serving loop is
still in the serving state afterwards: no decode, encode or send failure
of a single datagram terminates the loop or escapes it. -/
theorem serving_loop_isolates_errors (forged ip mx : List Nat)
    (ds : List (List Nat × Bool)) :
    (serveEvents forged ip mx (ds.map fun p => LoopEvent.recv p.1 p.2)).2 = none := by
  induction ds with
  | nil => rfl
  | cons d rest ih =>
    cases h : serveIteration forged ip mx d.1 d.2 <;>
      simp [serveEvents, h, ih]

/-- C9: the responder exits with code 1 when the socket bind fails,
whatever events would have followed (no retry), and exits with code 0
when serving is ended by an operator interrupt after any sequence of
received datagrams. -/
theorem responder_exit_codes (forged ip mx : List Nat) (events : List LoopEvent)
    (ds : List (List Nat × Bool)) :
    run_dns_spoofer false forged ip mx events = some 1 ∧
      run_dns_spoofer true forged ip mx
        ((ds.map fun p => LoopEvent.recv p.1 p.2) ++ [LoopEvent.interrupt]) = some 0 := by
  refine ⟨rfl, ?_⟩
  unfold run_dns_spoofer
  rw [if_pos rfl]
  induction ds with
  | nil => rfl
  | cons d rest ih =>
    cases h : serveIteration forged ip mx d.1 d.2 <;>
      simp [serveEvents, h] <;> exact ih

end SpoofMx
